import Mathlib

/-!
Verification of the apictl import pipeline (WSO2 product-apim-tooling,
import-export-cli): a shallow embedding of `impl/importAPI.go`,
`impl/importAPIProduct.go` and the application-import command, together
with theorems settling the specification claims about parameter merging,
defaults, validation, dispatch and status mapping.
-/

namespace ApimCli

/-! ### Go string primitives

Faithful models of the Go standard-library functions called by the source.
All of them are written by structural recursion over `List Char` so that a
concrete run evaluates inside the kernel. -/

/-- Whitespace test of Go `unicode.IsSpace`: ASCII whitespace, NEL, NBSP and
the Unicode space separators. -/
def goIsSpace (c : Char) : Bool :=
  let n := c.toNat
  n == 9 || n == 10 || n == 11 || n == 12 || n == 13 || n == 32 ||
  n == 0x85 || n == 0xA0 || n == 0x1680 ||
  (n ≥ 0x2000 && n ≤ 0x200A) ||
  n == 0x2028 || n == 0x2029 || n == 0x202F || n == 0x205F || n == 0x3000

/-- Character-list model of Go `strings.TrimSpace`. -/
def goTrimSpaceChars (l : List Char) : List Char :=
  ((l.dropWhile goIsSpace).reverse.dropWhile goIsSpace).reverse

/-- Model of the source helper `isEmpty`: `len(strings.TrimSpace(s)) == 0`. -/
def isEmpty (s : String) : Bool := goTrimSpaceChars s.data == []

/-- Go `strconv.FormatBool`. -/
def goFormatBool (b : Bool) : String := if b then "true" else "false"

/-- Go `strconv.ParseBool`: the accepted spellings, `none` for a syntax error. -/
def parseBool (s : String) : Option Bool :=
  if s = "1" ∨ s = "t" ∨ s = "T" ∨ s = "true" ∨ s = "TRUE" ∨ s = "True" then some true
  else if s = "0" ∨ s = "f" ∨ s = "F" ∨ s = "false" ∨ s = "FALSE" ∨ s = "False" then some false
  else none

/-- Go `strings.HasPrefix`. -/
def goStartsWith (s pre : String) : Bool := pre.data.isPrefixOf s.data

/-- Does `sub` occur as a contiguous run inside `l`? -/
def containsSub : List Char → List Char → Bool
  | sub, [] => sub.isPrefixOf []
  | sub, c :: rest => sub.isPrefixOf (c :: rest) || containsSub sub rest

/-- Go `strings.Contains`. -/
def goContains (s sub : String) : Bool := containsSub sub.data s.data

/-- If `pat` is a prefix of `l`, return the rest of `l`; otherwise `none`. -/
def dropExact : List Char → List Char → Option (List Char)
  | [], l => some l
  | _ :: _, [] => none
  | p :: ps, c :: cs => if p = c then dropExact ps cs else none

/-- Fuel-indexed worker for Go `strings.ReplaceAll`: scan left to right,
replacing non-overlapping occurrences of `pat` by `rep`.  Fuel at least the
length of the scanned list makes the 0-fuel fallback unreachable. -/
def replaceAllFuel (pat rep : List Char) : Nat → List Char → List Char
  | _, [] => []
  | 0, l => l
  | fuel + 1, c :: rest =>
    match pat with
    | [] => c :: rest
    | _ :: _ =>
      match dropExact pat (c :: rest) with
      | some remainder => rep ++ replaceAllFuel pat rep fuel remainder
      | none => c :: replaceAllFuel pat rep fuel rest

/-- Go `strings.ReplaceAll`.  (For an empty pattern Go would interleave the
replacement between characters; the source only ever replaces the literal
pattern "version" in braces, so that case is modelled as the identity.) -/
def goReplaceAll (s pat rep : String) : String :=
  ⟨replaceAllFuel pat.data rep.data s.data.length s.data⟩

/-- Split a character list on `'/'` (components of a slash path). -/
def splitOnSlash : List Char → List (List Char)
  | [] => [[]]
  | c :: rest =>
    if c = '/' then [] :: splitOnSlash rest
    else
      match splitOnSlash rest with
      | comp :: comps => (c :: comp) :: comps
      | [] => [[c]]

/-- One step of the element-wise reading of Go `path.Clean`: drop empty and
`.` components; `..` pops a previous real component, is dropped at the root
of a rooted path, and is kept on an unrooted path that cannot backtrack. -/
def cleanStep (rooted : Bool) (stack : List (List Char)) (comp : List Char) : List (List Char) :=
  if comp = [] ∨ comp = ['.'] then stack
  else if comp = ['.', '.'] then
    match stack with
    | h :: rest => if h ≠ ['.', '.'] then rest else if rooted then h :: rest else comp :: h :: rest
    | [] => if rooted then [] else [comp]
  else comp :: stack

/-- Join path components with `'/'`. -/
def joinSlash : List (List Char) → List Char
  | [] => []
  | [c] => c
  | c :: rest => c ++ '/' :: joinSlash rest

/-- Character-list worker for Go `path.Clean` (lexical cleaning of a
slash-separated path). -/
def pathCleanList (l : List Char) : List Char :=
  if l = [] then ['.']
  else
    let rooted : Bool := l.head? == some '/'
    let stack := ((splitOnSlash l).foldl (cleanStep rooted) []).reverse
    if rooted then '/' :: joinSlash stack
    else if stack = [] then ['.'] else joinSlash stack

/-- Go `path.Clean`. -/
def goPathClean (s : String) : String := ⟨pathCleanList s.data⟩

/-! ### JSON documents

The definition file is handled by the source as a generic JSON document
(a `gabs.Container`).  `Json` is the document tree; objects are ordered
association lists, matching the way the claims read and write single keys. -/

inductive Json where
  | null : Json
  | bool : Bool → Json
  | str : String → Json
  | num : Int → Json
  | arr : List Json → Json
  | obj : List (String × Json) → Json

/-- First binding of key `k` in an object's entry list. -/
def jsonFind (es : List (String × Json)) (k : String) : Option Json :=
  (es.find? (fun p => p.1 == k)).map (·.2)

/-- Replace the binding of `k` (or append one), as assignment into a Go map. -/
def setKey : List (String × Json) → String → Json → List (String × Json)
  | [], k, v => [(k, v)]
  | (k', v') :: rest, k, v =>
    if k' == k then (k, v) :: rest else (k', v') :: setKey rest k v

/-- Value at a top-level key (`gabs` `Path` for a single segment). -/
def Json.getKey : Json → String → Option Json
  | .obj es, k => jsonFind es k
  | _, _ => none

/-- `gabs` `Exists` for a single segment. -/
def Json.hasKey (j : Json) (k : String) : Bool := (j.getKey k).isSome

/-- `gabs` `SetP`: set the value at a dotted path, creating intermediate
objects; `none` is the path-collision error (an intermediate value exists
and is not an object, or the root is not an object). -/
def Json.setPath : Json → List String → Json → Option Json
  | _, [], v => some v
  | .obj es, [k], v => some (.obj (setKey es k v))
  | .obj es, k :: ks, v =>
    let child := (jsonFind es k).getD (Json.obj [])
    match child with
    | .obj _ => (Json.setPath child ks v).map (fun c => Json.obj (setKey es k c))
    | _ => none
  | _, _, _ => none

/-- `gabs` `Delete` for a top-level key (the source ignores its error). -/
def Json.deleteKey : Json → String → Json
  | .obj es, k => .obj (es.filter (fun p => !(p.1 == k)))
  | j, _ => j

mutual
/-- Modelled from the spec: `utils.MergeJSON` (declared outside `src/`) is
the right-biased recursive deep merge - for each key present in the
override, overwrite (recursively for objects); keys absent from the
override retain the base value; a non-object on either side is replaced by
the override.  No claim depends on the merged content itself. -/
def mergeJSON : Json → Json → Json
  | Json.obj b, Json.obj o => Json.obj (mergeEntries b o)
  | _, o2 => o2
termination_by _ over => sizeOf over

/-- Worker of `mergeJSON`: fold the override's entries into the base. -/
def mergeEntries : List (String × Json) → List (String × Json) → List (String × Json)
  | b, [] => b
  | b, (k, v) :: rest =>
    let merged :=
      match jsonFind b k with
      | some bv => mergeJSON bv v
      | none => v
    mergeEntries (setKey b k merged) rest
termination_by _ o => sizeOf o
end

/-- Escape a character for a JSON string literal. -/
def escapeChar (c : Char) : String :=
  if c = '\\' then "\\\\" else if c = '\"' then "\\\"" else String.singleton c

/-- Escape a JSON string literal body. -/
def escapeString (s : String) : String := s.data.foldl (fun acc c => acc ++ escapeChar c) ""

mutual
/-- Serialize a document to JSON text, as Go `encoding/json` marshalling /
`gabs` `String()` (an external library; the exact byte format is not load
bearing - the claims only use that the result is a single string value). -/
def serializeJson : Json → String
  | .null => "null"
  | .bool b => goFormatBool b
  | .str s => "\"" ++ escapeString s ++ "\""
  | .num n => toString n
  | .arr l => "[" ++ serializeArr l ++ "]"
  | .obj es => "\x7b" ++ serializeObj es ++ "\x7d"
termination_by j => sizeOf j

/-- Comma-separated serialization of array elements. -/
def serializeArr : List Json → String
  | [] => ""
  | [j] => serializeJson j
  | j :: rest => serializeJson j ++ "," ++ serializeArr rest
termination_by l => sizeOf l

/-- Comma-separated serialization of object entries. -/
def serializeObj : List (String × Json) → String
  | [] => ""
  | [(k, v)] => "\"" ++ escapeString k ++ "\":" ++ serializeJson v
  | (k, v) :: rest =>
    "\"" ++ escapeString k ++ "\":" ++ serializeJson v ++ "," ++ serializeObj rest
termination_by es => sizeOf es
end

/-! ### Override parameters and the merge pipeline (`impl/importAPI.go`)

`SecurityData` and `Environment` are the environment-scoped override blocks
of `api_params.yaml` (package `params`; the struct declarations live outside
`src/`, their fields are those the source reads).  The `enabled` field is a
string so that "not provided" (empty) is distinguishable from `"false"`,
exactly as in the source. -/

structure SecurityData where
  enabled : String
  username : String
  password : String
  type : String
deriving DecidableEq, Repr

/-- One environment's overrides: endpoint block (already marshalled to a
JSON value), optional gateway-environment list, optional security block. -/
structure Environment where
  endpoints : Json
  gatewayEnvironments : Option (List String)
  security : Option SecurityData

/-- The errors the merge steps can return.  `pathCollision` stands for a
failing `gabs` `SetP`; the security constructors carry the identity of the
`errors.New` messages of the source. -/
inductive MergeError where
  | pathCollision
  | enabledNotBoolean
  | securityUsernameMissing
  | securityPasswordMissing
  | securityTypeMissing
  | invalidSecurityType
deriving DecidableEq, Repr

/-- The three incomplete-security-config failures of the spec's taxonomy. -/
def MergeError.isIncompleteSecurityConfig : MergeError → Bool
  | .securityUsernameMissing | .securityPasswordMissing | .securityTypeMissing => true
  | _ => false

/-- `setEndpointSecurityType`: set `endpointAuthDigest` according to the
`type` field - `true` for `digest`, `false` for `basic`, otherwise the
invalid-security-type error. -/
def setEndpointSecurityType (s : SecurityData) (api : Json) : Except MergeError Json :=
  if s.type = "digest" then
    match api.setPath ["endpointAuthDigest"] (.bool true) with
    | none => .error .pathCollision
    | some api1 => .ok api1
  else if s.type = "basic" then
    match api.setPath ["endpointAuthDigest"] (.bool false) with
    | none => .error .pathCollision
    | some api1 => .ok api1
  else .error .invalidSecurityType

/-- `setSecurityEndpointsParams`: require username, password and type to be
non-empty, then write username/password and dispatch on the type.  Each
failing `SetP` returns its error immediately, as in the source. -/
def setSecurityEndpointsParams (s : SecurityData) (api : Json) : Except MergeError Json :=
  if s.username = "" then .error .securityUsernameMissing
  else if s.password = "" then .error .securityPasswordMissing
  else if s.type = "" then .error .securityTypeMissing
  else
    match api.setPath ["endpointUTUsername"] (.str s.username) with
    | none => .error .pathCollision
    | some api1 =>
      match api1.setPath ["endpointUTPassword"] (.str s.password) with
      | none => .error .pathCollision
      | some api2 => setEndpointSecurityType s api2

/-- `handleSecurityEndpointsParams`: act only when a security block is
present and its `enabled` string is non-empty (presence, not the boolean
zero value); parse it, set `endpointSecured`, then either fill the security
parameters (`true`) or clear username/password (`false`). -/
def handleSecurityEndpointsParams (sec : Option SecurityData) (api : Json) :
    Except MergeError Json :=
  match sec with
  | none => .ok api
  | some s =>
    if s.enabled = "" then .ok api
    else
      match parseBool s.enabled with
      | none => .error .enabledNotBoolean
      | some b =>
        match api.setPath ["endpointSecured"] (.bool b) with
        | none => .error .pathCollision
        | some api1 =>
          if b then
            setSecurityEndpointsParams s api1
          else
            match api1.setPath ["endpointUTUsername"] (.str "") with
            | none => .error .pathCollision
            | some api2 =>
              match api2.setPath ["endpointUTPassword"] (.str "") with
              | none => .error .pathCollision
              | some api3 => .ok api3

/-- Modelled from the spec: `params.ExtractAPIEndpointConfig` (declared
outside `src/`) extracts the definition's current endpoint-configuration
sub-tree; modelled as the JSON value stored at `endpointConfig` (null when
absent; decoding of an already-serialized string value is not modelled and
no claim depends on the merged content). -/
def extractAPIEndpointConfig (api : Json) : Json :=
  (api.getKey "endpointConfig").getD .null

/-- `mergeAPI` on the loaded definition document: merge the endpoint
override into `endpointConfig` (stored as a serialized string), replace
`environments` wholesale when a gateway list is present, then handle the
security override.  The returned document is the one serialized to
`Meta-information/api.yaml`; an error aborts before the write. -/
def mergeAPI (api : Json) (env : Environment) : Except MergeError Json :=
  let apiEndpointData := extractAPIEndpointConfig api
  let mergedAPIEndpoints := mergeJSON apiEndpointData env.endpoints
  match api.setPath ["endpointConfig"] (.str (serializeJson mergedAPIEndpoints)) with
  | none => .error .pathCollision
  | some api1 =>
    match env.gatewayEnvironments with
    | some gws =>
      match api1.setPath ["environments"] (.arr (gws.map .str)) with
      | none => .error .pathCollision
      | some api2 => handleSecurityEndpointsParams env.security api2
    | none => handleSecurityEndpointsParams env.security api1

/-- The writes `mergeAPI` performs on `Meta-information/api.yaml`: in the
source the single `ioutil.WriteFile` sits after every merge step, so the
merged document is written exactly when the merge succeeded. -/
def mergeAPIWrites (api : Json) (env : Environment) : List Json :=
  match mergeAPI api env with
  | .ok doc => [doc]
  | .error _ => []

/-- The `productionUrl` block of `preProcessAPI`: copy the legacy URL into
`production_endpoints.url` of the synthesized config (with a `"null"`
config marker) and delete the legacy field. -/
def synthProductionEndpoints (api conf0 : Json) : Except MergeError (Json × Json) :=
  if api.hasKey "productionUrl" then
    match conf0.setPath ["production_endpoints", "url"]
        ((api.getKey "productionUrl").getD .null) with
    | none => .error .pathCollision
    | some c1 =>
      match c1.setPath ["production_endpoints", "config"] (.str "null") with
      | none => .error .pathCollision
      | some c2 => .ok (c2, api.deleteKey "productionUrl")
  else .ok (conf0, api)

/-- The `sandboxUrl` block of `preProcessAPI`, as `synthProductionEndpoints`. -/
def synthSandboxEndpoints (api1 conf1 : Json) : Except MergeError (Json × Json) :=
  if api1.hasKey "sandboxUrl" then
    match conf1.setPath ["sandbox_endpoints", "url"]
        ((api1.getKey "sandboxUrl").getD .null) with
    | none => .error .pathCollision
    | some c1 =>
      match c1.setPath ["sandbox_endpoints", "config"] (.str "null") with
      | none => .error .pathCollision
      | some c2 => .ok (c2, api1.deleteKey "sandboxUrl")
  else .ok (conf1, api1)

/-- `preProcessAPI` on the loaded document: when `endpointConfig` is absent,
synthesize one of `endpoint_type = http` from the legacy
`productionUrl`/`sandboxUrl` fields, delete those fields, and store the
serialized config string under `endpointConfig`; the returned flag is
`dirty` (the document is written back only when it is true). -/
def preProcessAPI (api : Json) : Except MergeError (Json × Bool) :=
  if api.hasKey "endpointConfig" then .ok (api, false)
  else
    match synthProductionEndpoints api (.obj [("endpoint_type", .str "http")]) with
    | .error e => .error e
    | .ok (conf1, api1) =>
      match synthSandboxEndpoints api1 conf1 with
      | .error e => .error e
      | .ok (conf2, api2) =>
        match api2.setPath ["endpointConfig"] (.str (serializeJson conf2)) with
        | none => .error .pathCollision
        | some api3 => .ok (api3, true)

/-! ### Typed view of the definition document

`v2.APIDefinition` / `v2.APIProductDefinition` are declared outside `src/`;
the fields below are exactly those the source reads and writes (identity,
context, context template, tags, URI templates, implementation), per the
spec's data model.  `Option` distinguishes a `nil` Go slice from an empty
one, as the defaults stage does. -/

structure APIID where
  apiName : String
  version : String
  provider : String
deriving DecidableEq, Repr

/-- A URI template entry; its contents are never inspected by the pipeline. -/
structure URITemplate where
  raw : String
deriving DecidableEq, Repr

structure APIDefinition where
  id : APIID
  context : String
  contextTemplate : String
  tags : Option (List String)
  uriTemplates : Option (List URITemplate)
  implementation : String
deriving DecidableEq, Repr

structure APIProductID where
  apiProductName : String
  version : String
  provider : String
deriving DecidableEq, Repr

structure APIProductDefinition where
  id : APIProductID
  context : String
  contextTemplate : String
  tags : Option (List String)
deriving DecidableEq, Repr

/-- `populateApiWithDefaults`: fill the context template (cleaning the
context and substituting the version placeholder), default tags and URI
templates to empty sequences and the implementation to `ENDPOINT`; the
boolean is the `dirty` flag. -/
def populateApiWithDefaults (d0 : APIDefinition) : APIDefinition × Bool :=
  let step1 :=
    if d0.contextTemplate = "" then
      if !goContains d0.context "{version}" then
        let ct := goPathClean (d0.context ++ "/{version}")
        ({ d0 with contextTemplate := ct,
                   context := goReplaceAll ct "{version}" d0.id.version }, true)
      else
        let c := goPathClean d0.context
        ({ d0 with contextTemplate := c,
                   context := goReplaceAll c "{version}" d0.id.version }, true)
    else (d0, false)
  let step2 := if step1.1.tags = none then ({ step1.1 with tags := some [] }, true) else step1
  let step3 :=
    if step2.1.uriTemplates = none then ({ step2.1 with uriTemplates := some [] }, true) else step2
  if step3.1.implementation = "" then ({ step3.1 with implementation := "ENDPOINT" }, true)
  else step3

/-- `populateApiProductWithDefaults`: the API Product defaults stage
(context template and tags only). -/
def populateApiProductWithDefaults (d0 : APIProductDefinition) : APIProductDefinition × Bool :=
  let step1 :=
    if d0.contextTemplate = "" then
      if !goContains d0.context "{version}" then
        let ct := goPathClean (d0.context ++ "/{version}")
        ({ d0 with contextTemplate := ct,
                   context := goReplaceAll ct "{version}" d0.id.version }, true)
      else
        let c := goPathClean d0.context
        ({ d0 with contextTemplate := c,
                   context := goReplaceAll c "{version}" d0.id.version }, true)
    else (d0, false)
  if step1.1.tags = none then ({ step1.1 with tags := some [] }, true) else step1

/-- The seven named validation failures, in the order the source checks
them (the same rules for APIs and API Products). -/
inductive ValidationError where
  | nameRequired
  | nameIllegalChars
  | versionRequired
  | contextRequired
  | contextTemplateRequired
  | contextNoSlash
  | contextTemplateNoSlash
deriving DecidableEq, Repr

/-- The character class of the `reApiName` / `reApiProductName` regular
expression. -/
def illegalNameChars : List Char :=
  ['~', '!', '@', '#', ';', ':', '%', '^', '*', '(', ')', '+', '=', '\x7b', '\x7d',
   '|', '\\', '<', '>', '\"', '\'', ',', '&', '/', '$']

/-- `reApiName.MatchString`: does the name contain a forbidden character? -/
def hasIllegalNameChar (s : String) : Bool :=
  s.data.any (fun c => illegalNameChars.contains c)

/-- `validateApiDefinition`: the rules in source order, first failure wins. -/
def validateApiDefinition (d : APIDefinition) : Option ValidationError :=
  if isEmpty d.id.apiName then some .nameRequired
  else if hasIllegalNameChar d.id.apiName then some .nameIllegalChars
  else if isEmpty d.id.version then some .versionRequired
  else if isEmpty d.context then some .contextRequired
  else if isEmpty d.contextTemplate then some .contextTemplateRequired
  else if !goStartsWith d.context "/" then some .contextNoSlash
  else if !goStartsWith d.contextTemplate "/" then some .contextTemplateNoSlash
  else none

/-- `validateApiProductDefinition`: identical rules on the product view. -/
def validateApiProductDefinition (d : APIProductDefinition) : Option ValidationError :=
  if isEmpty d.id.apiProductName then some .nameRequired
  else if hasIllegalNameChar d.id.apiProductName then some .nameIllegalChars
  else if isEmpty d.id.version then some .versionRequired
  else if isEmpty d.context then some .contextRequired
  else if isEmpty d.contextTemplate then some .contextTemplateRequired
  else if !goStartsWith d.context "/" then some .contextNoSlash
  else if !goStartsWith d.contextTemplate "/" then some .contextTemplateNoSlash
  else none

/-! ### Existence lookup and dispatch (`ImportAPI` / `getApiProductID`)

The remote catalog is the collaborator of the spec's section 6: it answers
a query with a count and a list of entity summaries. -/

/-- The exact-match search filter built by `getApiID`. -/
def apiSearchQuery (name version : String) : String :=
  "name:" ++ name ++ " version:" ++ version

/-- Modelled from the spec: `utils.DefaultApiProductType` (declared outside
`src/`) is the fixed type filter for API Products. -/
def defaultApiProductType : String := "APIProduct"

/-- The search filter built by `getApiProductID`: the exact-match filter
plus the fixed type filter. -/
def apiProductSearchQuery (name version : String) : String :=
  apiSearchQuery name version ++ " type:\"" ++ defaultApiProductType ++ "\""

/-- A catalog entity summary (only the identifier is read). -/
structure ApiSummary where
  id : String
deriving DecidableEq, Repr

/-- A catalog query response: a count plus the matching summaries. -/
structure ApiListResponse where
  count : Nat
  list : List ApiSummary
deriving DecidableEq, Repr

/-- `getApiID` (and `getApiProductID`) on a catalog response: empty string
for count zero, otherwise the first match's identifier.  `none` models the
index-out-of-range panic when the count is positive but the list empty. -/
def getApiID (resp : ApiListResponse) : Option String :=
  if resp.count = 0 then some "" else resp.list.head?.map (·.id)

/-- The `updateAPI` flag computed by `ImportAPI`: false without the update
flag; with it, true exactly when the existence lookup returned an
identifier. -/
def decideUpdateAPI (importAPIUpdate : Bool) (resp : ApiListResponse) : Option Bool :=
  if importAPIUpdate then (getApiID resp).map (fun id => !(id == "")) else some false

/-- The query string `ImportAPI` appends to `adminEndpoint + "/import/api"`:
`overwrite=true` is added only on the update path. -/
def importApiQuery (updateAPI preserveProvider : Bool) : String :=
  if updateAPI then
    "?overwrite=" ++ goFormatBool true ++ "&preserveProvider=" ++ goFormatBool preserveProvider
  else
    "?preserveProvider=" ++ goFormatBool preserveProvider

/-- The upload request handed to the transport collaborator. -/
structure UploadRequest where
  url : String
  httpMethod : String
  extraParams : List (String × String)
deriving DecidableEq, Repr

/-- The final upload request built by `ImportAPI`: `POST`, empty extra
parameters, and the endpoint with the create/update query string. -/
def importApiRequest (adminEndpoint : String) (updateAPI preserveProvider : Bool) :
    UploadRequest :=
  { url := adminEndpoint ++ "/import/api" ++ importApiQuery updateAPI preserveProvider
    httpMethod := "POST"
    extraParams := [] }

/-! ### Status mapping of the final upload -/

/-- Outcome of `importAPI` / `importAPIProduct` (impl package): success or
an error that prints the response body and returns the response status. -/
inductive ApiImportResult where
  | success
  | failure (status : String) (body : String)
deriving DecidableEq, Repr

/-- The status mapping of `importAPI` (identical in `importAPIProduct`):
only 201 Created and 200 OK are success; every other status is an error
carrying the response status and body. -/
def importAPIStatusOutcome (statusCode : Nat) (status body : String) : ApiImportResult :=
  if statusCode = 201 ∨ statusCode = 200 then .success else .failure status body

/-- Outcome surfaced by `executeImportAppCmd` (application import). -/
inductive AppImportOutcome where
  | success
  | multiStatus
  | unauthorized
  | forbidden
  | otherError (status : String)
deriving DecidableEq, Repr

/-- The status mapping of `executeImportAppCmd`: 200/201 success, 207 a
distinct partial-success outcome, 401/403 dedicated messages, anything else
a generic error logging the response status. -/
def executeImportAppOutcome (statusCode : Nat) (status : String) : AppImportOutcome :=
  if statusCode = 200 ∨ statusCode = 201 then .success
  else if statusCode = 207 then .multiStatus
  else if statusCode = 401 then .unauthorized
  else if statusCode = 403 then .forbidden
  else .otherError status

/-! ### Helper lemmas -/

/-- A string containing a non-whitespace character does not trim to empty. -/
theorem goTrimSpaceChars_ne_nil {l : List Char} {c : Char} (hc : c ∈ l)
    (hs : goIsSpace c = false) : goTrimSpaceChars l ≠ [] := by
  intro h
  unfold goTrimSpaceChars at h
  rw [List.reverse_eq_nil_iff, List.dropWhile_eq_nil_iff] at h
  have hall : ∀ x ∈ l.dropWhile goIsSpace, goIsSpace x = true := by
    intro x hx
    exact h x (List.mem_reverse.mpr hx)
  have hl : ∀ x ∈ l, goIsSpace x = true := by
    intro x hx
    rw [← List.takeWhile_append_dropWhile (p := goIsSpace) (l := l)] at hx
    rcases List.mem_append.mp hx with htk | hdr
    · exact List.mem_takeWhile_imp htk
    · exact hall x hdr
  rw [hl c hc] at hs
  exact Bool.noConfusion hs

/-- `isEmpty` is false for a string containing a non-whitespace character. -/
theorem isEmpty_eq_false_of_mem {s : String} {c : Char} (hc : c ∈ s.data)
    (hs : goIsSpace c = false) : isEmpty s = false := by
  unfold isEmpty
  exact beq_eq_false_iff_ne.mpr (goTrimSpaceChars_ne_nil hc hs)

/-- Every forbidden name character is non-whitespace. -/
theorem illegalNameChars_not_space : ∀ c ∈ illegalNameChars, goIsSpace c = false := by
  decide

/-- A name containing a forbidden character is non-empty after trimming. -/
theorem isEmpty_eq_false_of_illegal {s : String} (h : hasIllegalNameChar s = true) :
    isEmpty s = false := by
  unfold hasIllegalNameChar at h
  obtain ⟨c, hc, hmem⟩ := List.any_eq_true.mp h
  exact isEmpty_eq_false_of_mem hc
    (illegalNameChars_not_space c (List.mem_of_elem_eq_true hmem))

/-- `cleanStep` never pushes an empty component. -/
theorem cleanStep_ne_nil {rooted : Bool} {stack : List (List Char)} {comp : List Char}
    (h : ∀ x ∈ stack, x ≠ []) : ∀ x ∈ cleanStep rooted stack comp, x ≠ ([] : List Char) := by
  intro x hx
  unfold cleanStep at hx
  split at hx
  · exact h x hx
  · split at hx
    · rename_i hdd
      split at hx
      · rename_i hd rest
        split at hx
        · exact h x (List.mem_cons_of_mem _ hx)
        · split at hx
          · exact h x hx
          · rcases List.mem_cons.mp hx with h1 | h2
            · subst h1; simp [hdd]
            · exact h x h2
      · split at hx
        · exact absurd hx (List.not_mem_nil x)
        · rw [List.mem_singleton] at hx
          subst hx; simp [hdd]
    · rcases List.mem_cons.mp hx with h1 | h2
      · subst h1
        rename_i hne _
        intro hceq
        exact hne (Or.inl hceq)
      · exact h x h2

/-- Folding `cleanStep` preserves non-emptiness of all stack components. -/
theorem foldl_cleanStep_ne_nil (rooted : Bool) (comps : List (List Char)) :
    ∀ stack, (∀ x ∈ stack, x ≠ []) →
      ∀ x ∈ comps.foldl (cleanStep rooted) stack, x ≠ ([] : List Char) := by
  induction comps with
  | nil => intro stack h x hx; exact h x hx
  | cons c rest ih =>
    intro stack h x hx
    exact ih (cleanStep rooted stack c) (fun y hy => cleanStep_ne_nil h y hy) x hx

/-- Joining a stack whose first component is non-empty is non-empty. -/
theorem joinSlash_ne_nil {c : List Char} {rest : List (List Char)} (hc : c ≠ []) :
    joinSlash (c :: rest) ≠ [] := by
  cases rest with
  | nil => simpa [joinSlash] using hc
  | cons d ds => simp [joinSlash]

/-- `path.Clean` never returns the empty string (worker form). -/
theorem pathCleanList_ne_nil (l : List Char) : pathCleanList l ≠ [] := by
  unfold pathCleanList
  split
  · simp
  · dsimp only
    split
    · simp
    · split
      · simp
      · rename_i hstack
        rcases hl : ((splitOnSlash l).foldl (cleanStep (l.head? == some '/')) []).reverse with
          _ | ⟨c, rest⟩
        · exact absurd hl hstack
        · refine joinSlash_ne_nil ?_
          have hmem : c ∈ ((splitOnSlash l).foldl (cleanStep (l.head? == some '/')) []) := by
            have : c ∈ ((splitOnSlash l).foldl (cleanStep (l.head? == some '/')) []).reverse := by
              rw [hl]; exact List.mem_cons_self c rest
            exact List.mem_reverse.mp this
          exact foldl_cleanStep_ne_nil _ _ [] (by simp) c hmem

/-- `path.Clean` never returns the empty string. -/
theorem goPathClean_ne_empty (s : String) : goPathClean s ≠ "" := by
  unfold goPathClean
  intro h
  have : pathCleanList s.data = [] := by
    have := congrArg String.data h
    simpa using this
  exact pathCleanList_ne_nil s.data this

/-- Unfold `jsonFind` over a cons cell. -/
theorem jsonFind_cons (p : String × Json) (rest : List (String × Json)) (k : String) :
    jsonFind (p :: rest) k = if p.1 = k then some p.2 else jsonFind rest k := by
  by_cases h : p.1 = k
  · simp [jsonFind, List.find?, h]
  · have hb : (p.1 == k) = false := beq_eq_false_iff_ne.mpr h
    simp [jsonFind, List.find?, h, hb]

/-- Looking up the key just set returns the new value. -/
theorem jsonFind_setKey_self (es : List (String × Json)) (k : String) (v : Json) :
    jsonFind (setKey es k v) k = some v := by
  induction es with
  | nil => simp [setKey, jsonFind, List.find?]
  | cons p rest ih =>
    obtain ⟨k', v'⟩ := p
    by_cases h : k' = k
    · subst h; simp [setKey, jsonFind, List.find?]
    · simp only [setKey, beq_iff_eq, h, if_false]
      rw [jsonFind_cons]
      simp [h, ih]

/-- Looking up a different key is unaffected by `setKey`. -/
theorem jsonFind_setKey_ne (es : List (String × Json)) {k k' : String} (v : Json)
    (h : k' ≠ k) : jsonFind (setKey es k v) k' = jsonFind es k' := by
  induction es with
  | nil =>
    have hb : (k == k') = false := beq_eq_false_iff_ne.mpr (Ne.symm h)
    simp [setKey, jsonFind, List.find?, hb]
  | cons p rest ih =>
    obtain ⟨k₀, v₀⟩ := p
    by_cases h0 : k₀ = k
    · subst h0
      simp only [setKey, beq_self_eq_true, if_true]
      rw [jsonFind_cons, jsonFind_cons]
      simp [Ne.symm h]
    · simp only [setKey, beq_iff_eq, h0, if_false]
      rw [jsonFind_cons, jsonFind_cons]
      by_cases h1 : k₀ = k'
      · simp [h1]
      · simp [h1, ih]

/-- A successful single-segment `SetP` sets the key and leaves every other
top-level key unchanged (and in particular the root was an object). -/
theorem setPath_single_spec {a b : Json} {k : String} {v : Json}
    (h : a.setPath [k] v = some b) :
    b.getKey k = some v ∧ ∀ k', k' ≠ k → b.getKey k' = a.getKey k' := by
  cases a with
  | obj es =>
    simp only [Json.setPath, Option.some_inj] at h
    subst h
    constructor
    · simp [Json.getKey, jsonFind_setKey_self]
    · intro k' hk'
      simp [Json.getKey, jsonFind_setKey_ne es v hk']
  | null => simp [Json.setPath] at h
  | bool x => simp [Json.setPath] at h
  | str x => simp [Json.setPath] at h
  | num x => simp [Json.setPath] at h
  | arr x => simp [Json.setPath] at h

/-- A successful single-segment `SetP` on an object. -/
theorem setPath_single_obj (es : List (String × Json)) (k : String) (v : Json) :
    (Json.obj es).setPath [k] v = some (Json.obj (setKey es k v)) := rfl

/-- `setEndpointSecurityType` touches only `endpointAuthDigest`. -/
theorem setEndpointSecurityType_frame {s : SecurityData} {a b : Json}
    (h : setEndpointSecurityType s a = .ok b) {k : String}
    (hk : k ≠ "endpointAuthDigest") : b.getKey k = a.getKey k := by
  unfold setEndpointSecurityType at h
  split at h
  · split at h
    · exact absurd h (by simp)
    · rename_i hset
      simp only [Except.ok.injEq] at h
      subst h
      exact (setPath_single_spec hset).2 k hk
  · split at h
    · split at h
      · exact absurd h (by simp)
      · rename_i hset
        simp only [Except.ok.injEq] at h
        subst h
        exact (setPath_single_spec hset).2 k hk
    · exact absurd h (by simp)

/-- `setSecurityEndpointsParams` touches only the username, password and
auth-digest keys. -/
theorem setSecurityEndpointsParams_frame {s : SecurityData} {a b : Json}
    (h : setSecurityEndpointsParams s a = .ok b) {k : String}
    (h1 : k ≠ "endpointUTUsername") (h2 : k ≠ "endpointUTPassword")
    (h3 : k ≠ "endpointAuthDigest") : b.getKey k = a.getKey k := by
  unfold setSecurityEndpointsParams at h
  split at h
  · exact absurd h (by simp)
  · split at h
    · exact absurd h (by simp)
    · split at h
      · exact absurd h (by simp)
      · split at h
        · exact absurd h (by simp)
        · rename_i a1 hu
          split at h
          · exact absurd h (by simp)
          · rename_i a2 hp
            calc b.getKey k = a2.getKey k := setEndpointSecurityType_frame h h3
              _ = a1.getKey k := (setPath_single_spec hp).2 k h2
              _ = a.getKey k := (setPath_single_spec hu).2 k h1

/-- `handleSecurityEndpointsParams` touches only the four security keys. -/
theorem handleSecurityEndpointsParams_frame {sec : Option SecurityData} {a b : Json}
    (h : handleSecurityEndpointsParams sec a = .ok b) {k : String}
    (h0 : k ≠ "endpointSecured") (h1 : k ≠ "endpointUTUsername")
    (h2 : k ≠ "endpointUTPassword") (h3 : k ≠ "endpointAuthDigest") :
    b.getKey k = a.getKey k := by
  cases sec with
  | none =>
    simp only [handleSecurityEndpointsParams, Except.ok.injEq] at h
    rw [h]
  | some s =>
    simp only [handleSecurityEndpointsParams] at h
    split at h
    · simp only [Except.ok.injEq] at h; rw [h]
    · split at h
      · exact absurd h (by simp)
      · split at h
        · exact absurd h (by simp)
        · rename_i bv _ a1 hsec
          split at h
          · calc b.getKey k = a1.getKey k := setSecurityEndpointsParams_frame h h1 h2 h3
              _ = a.getKey k := (setPath_single_spec hsec).2 k h0
          · split at h
            · exact absurd h (by simp)
            · rename_i a2 hu
              split at h
              · exact absurd h (by simp)
              · rename_i a3 hp
                simp only [Except.ok.injEq] at h
                subst h
                calc a3.getKey k = a2.getKey k := (setPath_single_spec hp).2 k h2
                  _ = a1.getKey k := (setPath_single_spec hu).2 k h1
                  _ = a.getKey k := (setPath_single_spec hsec).2 k h0

/-- A successful merge factors through the security stage: the document
handed to `handleSecurityEndpointsParams` agrees with the original
definition on the three security keys. -/
theorem mergeAPI_ok_security_stage {api : Json} {env : Environment} {doc : Json}
    (h : mergeAPI api env = .ok doc) :
    ∃ mid, handleSecurityEndpointsParams env.security mid = .ok doc ∧
      mid.getKey "endpointSecured" = api.getKey "endpointSecured" ∧
      mid.getKey "endpointUTUsername" = api.getKey "endpointUTUsername" ∧
      mid.getKey "endpointUTPassword" = api.getKey "endpointUTPassword" := by
  unfold mergeAPI at h
  cases hset1 : api.setPath ["endpointConfig"]
      (Json.str (serializeJson (mergeJSON (extractAPIEndpointConfig api) env.endpoints))) with
  | none => simp only [hset1] at h; exact absurd h (by simp)
  | some api1 =>
    simp only [hset1] at h
    have f1 := (setPath_single_spec hset1).2
    cases hgw : env.gatewayEnvironments with
    | none =>
      simp only [hgw] at h
      exact ⟨api1, h, f1 _ (by decide), f1 _ (by decide), f1 _ (by decide)⟩
    | some gws =>
      simp only [hgw] at h
      cases hset2 : api1.setPath ["environments"] (Json.arr (gws.map Json.str)) with
      | none => simp only [hset2] at h; exact absurd h (by simp)
      | some api2 =>
        simp only [hset2] at h
        have f2 := (setPath_single_spec hset2).2
        refine ⟨api2, h, ?_, ?_, ?_⟩ <;> rw [f2 _ (by decide), f1 _ (by decide)]

/-- A security override with `enabled = "false"` forces the secured flag to
`false` and clears username and password in the resulting document. -/
theorem handleSecurity_false_spec {s : SecurityData} {a b : Json}
    (hs : s.enabled = "false") (h : handleSecurityEndpointsParams (some s) a = .ok b) :
    b.getKey "endpointSecured" = some (.bool false) ∧
    b.getKey "endpointUTUsername" = some (.str "") ∧
    b.getKey "endpointUTPassword" = some (.str "") := by
  have hpb : parseBool "false" = some false := by decide
  simp only [handleSecurityEndpointsParams, hs, hpb] at h
  rw [if_neg (by decide)] at h
  cases hsec : a.setPath ["endpointSecured"] (Json.bool false) with
  | none => simp only [hsec] at h; exact absurd h (by simp)
  | some a1 =>
    simp only [hsec] at h
    rw [if_neg (by decide)] at h
    cases hu : a1.setPath ["endpointUTUsername"] (Json.str "") with
    | none => simp only [hu] at h; exact absurd h (by simp)
    | some a2 =>
      simp only [hu] at h
      cases hp : a2.setPath ["endpointUTPassword"] (Json.str "") with
      | none => simp only [hp] at h; exact absurd h (by simp)
      | some a3 =>
        simp only [hp, Except.ok.injEq] at h
        subst h
        refine ⟨?_, ?_, ?_⟩
        · rw [(setPath_single_spec hp).2 _ (by decide),
            (setPath_single_spec hu).2 _ (by decide)]
          exact (setPath_single_spec hsec).1
        · rw [(setPath_single_spec hp).2 _ (by decide)]
          exact (setPath_single_spec hu).1
        · exact (setPath_single_spec hp).1

/-! ### Claim theorems -/

/-- Claim C1: for every security override in the parameters file, if its
`enabled` field is absent or empty the merge leaves `endpointSecured`,
`endpointUTUsername` and `endpointUTPassword` unchanged; if `enabled` is
explicitly `"false"` the merge sets `endpointSecured` to `false` and both
username and password to the empty string, regardless of their previous
values.  The distinction is made by presence of the field (the empty
string), not by the boolean zero value. -/
theorem c1_security_absence_vs_false (api : Json) (env : Environment) (doc : Json)
    (hok : mergeAPI api env = .ok doc) :
    ((env.security = none ∨ ∃ s, env.security = some s ∧ s.enabled = "") →
      doc.getKey "endpointSecured" = api.getKey "endpointSecured" ∧
      doc.getKey "endpointUTUsername" = api.getKey "endpointUTUsername" ∧
      doc.getKey "endpointUTPassword" = api.getKey "endpointUTPassword") ∧
    (∀ s, env.security = some s → s.enabled = "false" →
      doc.getKey "endpointSecured" = some (.bool false) ∧
      doc.getKey "endpointUTUsername" = some (.str "") ∧
      doc.getKey "endpointUTPassword" = some (.str "")) := by
  obtain ⟨mid, hsec, hS, hU, hP⟩ := mergeAPI_ok_security_stage hok
  constructor
  · intro hcase
    have hdoc : doc = mid := by
      rcases hcase with hnone | ⟨s, hsome, hemp⟩
      · rw [hnone] at hsec
        simp only [handleSecurityEndpointsParams, Except.ok.injEq] at hsec
        rw [hsec]
      · rw [hsome] at hsec
        simp only [handleSecurityEndpointsParams, hemp, if_pos, Except.ok.injEq] at hsec
        rw [hsec]
    rw [hdoc]
    exact ⟨hS, hU, hP⟩
  · intro s hsome hfalse
    rw [hsome] at hsec
    exact handleSecurity_false_spec hfalse hsec

/-- Claim C1 witness: a previously-secured definition merged with an
`enabled="false"` override ends with security disabled and credentials
cleared. -/
theorem c1_security_absence_vs_false_witness :
    mergeAPI
        (Json.obj [("endpointSecured", Json.bool true),
                   ("endpointUTUsername", Json.str "user"),
                   ("endpointUTPassword", Json.str "pass")])
        { endpoints := Json.obj [], gatewayEnvironments := none,
          security := some { enabled := "false", username := "", password := "", type := "" } } =
      .ok (Json.obj [("endpointSecured", Json.bool false),
                     ("endpointUTUsername", Json.str ""),
                     ("endpointUTPassword", Json.str ""),
                     ("endpointConfig", Json.str "\x7b\x7d")]) ∧
    (Json.obj [("endpointSecured", Json.bool false),
               ("endpointUTUsername", Json.str ""),
               ("endpointUTPassword", Json.str ""),
               ("endpointConfig", Json.str "\x7b\x7d")]).getKey "endpointSecured" =
      some (Json.bool false) := by
  have hok : mergeAPI
      (Json.obj [("endpointSecured", Json.bool true),
                 ("endpointUTUsername", Json.str "user"),
                 ("endpointUTPassword", Json.str "pass")])
      { endpoints := Json.obj [], gatewayEnvironments := none,
        security := some { enabled := "false", username := "", password := "", type := "" } } =
      .ok (Json.obj [("endpointSecured", Json.bool false),
                     ("endpointUTUsername", Json.str ""),
                     ("endpointUTPassword", Json.str ""),
                     ("endpointConfig", Json.str "\x7b\x7d")]) := by
    simp [mergeAPI, extractAPIEndpointConfig, Json.getKey, jsonFind, List.find?, mergeJSON,
      serializeJson, serializeObj, Json.setPath, setKey, handleSecurityEndpointsParams, parseBool]
  exact ⟨hok,
    ((c1_security_absence_vs_false _ _ _ hok).2 _ rfl rfl).1⟩

/-- Claim C2 counterexample: the API upload of the impl package treats a
207 response as an error (it is not a distinct partial-success outcome),
refuting the claim for the API/API Product dispatch. -/
theorem c2_counterexample_207_api_upload :
    importAPIStatusOutcome 207 "207 Multi Status" "response-body" =
      ApiImportResult.failure "207 Multi Status" "response-body" := by decide

/-- Claim C2 (amended): only the Application import maps 207 to a distinct
partial-success outcome; the API (and API Product) upload yields success
exactly for 200/201 and a failure carrying the response body for every
other status, 207 included. -/
theorem c2_amended_status_mapping (code : Nat) (status body : String) :
    (importAPIStatusOutcome code status body = .success ↔ (code = 201 ∨ code = 200)) ∧
    (¬(code = 201 ∨ code = 200) →
      importAPIStatusOutcome code status body = .failure status body) ∧
    (executeImportAppOutcome 207 status = .multiStatus) ∧
    (executeImportAppOutcome code status = .success ↔ (code = 200 ∨ code = 201)) ∧
    AppImportOutcome.multiStatus ≠ AppImportOutcome.success ∧
    (∀ st, AppImportOutcome.multiStatus ≠ AppImportOutcome.otherError st) := by
  refine ⟨?_, ?_, ?_, ?_, by simp, by simp⟩
  · unfold importAPIStatusOutcome
    split <;> rename_i hc
    · simp [hc]
    · simp [hc]
  · intro hc
    unfold importAPIStatusOutcome
    rw [if_neg hc]
  · simp [executeImportAppOutcome]
  · unfold executeImportAppOutcome
    split <;> rename_i hc
    · simp [hc]
    · split
      · simp [hc]
      · split
        · simp [hc]
        · split <;> simp [hc]

/-- Claim C2 witness: the amended mapping evaluated at a 500 response. -/
theorem c2_amended_status_mapping_witness :
    importAPIStatusOutcome 500 "500 Internal Server Error" "boom" =
      ApiImportResult.failure "500 Internal Server Error" "boom" :=
  (c2_amended_status_mapping 500 "500 Internal Server Error" "boom").2.1 (by decide)

/-- A security override enabled `"true"` with a username but no password
makes the security stage fail with the password-missing error. -/
theorem handleSecurity_password_missing {s : SecurityData} {es : List (String × Json)}
    (hen : s.enabled = "true") (hu : s.username ≠ "") (hp : s.password = "") :
    handleSecurityEndpointsParams (some s) (Json.obj es) =
      .error .securityPasswordMissing := by
  simp +decide [handleSecurityEndpointsParams, hen, parseBool, Json.setPath,
    setSecurityEndpointsParams, hu, hp]

/-- Claim C3: the merge is atomic with respect to the definition file - a
failing step returns the error and nothing is written; the write happens
exactly when every step succeeded; in particular a security override with
`enabled="true"` and a missing password aborts with the incomplete-security
error before any write. -/
theorem c3_merge_atomicity (api : Json) (env : Environment) :
    (∀ e, mergeAPI api env = .error e → mergeAPIWrites api env = []) ∧
    (∀ doc, mergeAPI api env = .ok doc → mergeAPIWrites api env = [doc]) ∧
    (∀ es s, api = Json.obj es → env.security = some s → s.enabled = "true" →
      s.username ≠ "" → s.password = "" →
      mergeAPI api env = .error .securityPasswordMissing ∧
      MergeError.securityPasswordMissing.isIncompleteSecurityConfig = true ∧
      mergeAPIWrites api env = []) := by
  refine ⟨?_, ?_, ?_⟩
  · intro e he
    unfold mergeAPIWrites
    rw [he]
  · intro doc hd
    unfold mergeAPIWrites
    rw [hd]
  · intro es s hapi hsec hen hu hp
    have herr : mergeAPI api env = .error .securityPasswordMissing := by
      subst hapi
      unfold mergeAPI
      simp only [setPath_single_obj]
      cases hgw : env.gatewayEnvironments with
      | none =>
        simp only [hsec]
        exact handleSecurity_password_missing hen hu hp
      | some gws =>
        simp only [setPath_single_obj, hsec]
        exact handleSecurity_password_missing hen hu hp
    refine ⟨herr, by decide, ?_⟩
    unfold mergeAPIWrites
    rw [herr]

/-- Claim C3 witness: a concrete definition and an override with
`enabled="true"`, a username and an empty password. -/
theorem c3_merge_atomicity_witness :
    mergeAPI (Json.obj [])
        { endpoints := Json.obj [], gatewayEnvironments := none,
          security := some { enabled := "true", username := "admin", password := "",
                             type := "basic" } } =
      .error .securityPasswordMissing ∧
    mergeAPIWrites (Json.obj [])
        { endpoints := Json.obj [], gatewayEnvironments := none,
          security := some { enabled := "true", username := "admin", password := "",
                             type := "basic" } } = [] := by
  have h := (c3_merge_atomicity (Json.obj [])
    { endpoints := Json.obj [], gatewayEnvironments := none,
      security := some { enabled := "true", username := "admin", password := "",
                         type := "basic" } }).2.2
    [] { enabled := "true", username := "admin", password := "", type := "basic" }
    rfl rfl rfl (by decide) rfl
  exact ⟨h.1, h.2.2⟩

/-- Claim C6: for a security override explicitly enabled, an empty
username, password or type fails with an incomplete-security-config error
(in the source's checking order); otherwise the username and password are
written into the definition and `endpointAuthDigest` becomes `true` for
type `digest`, `false` for type `basic`, while any other type fails with
the invalid-security-type error. -/
theorem c6_security_enabled_true (s : SecurityData) (es : List (String × Json))
    (ht : parseBool s.enabled = some true) :
    ((s.username = "" ∨ s.password = "" ∨ s.type = "") →
      ∃ e, handleSecurityEndpointsParams (some s) (Json.obj es) = .error e ∧
        e.isIncompleteSecurityConfig = true) ∧
    (s.username ≠ "" → s.password ≠ "" → s.type = "digest" →
      ∃ doc, handleSecurityEndpointsParams (some s) (Json.obj es) = .ok doc ∧
        doc.getKey "endpointUTUsername" = some (.str s.username) ∧
        doc.getKey "endpointUTPassword" = some (.str s.password) ∧
        doc.getKey "endpointAuthDigest" = some (.bool true) ∧
        doc.getKey "endpointSecured" = some (.bool true)) ∧
    (s.username ≠ "" → s.password ≠ "" → s.type = "basic" →
      ∃ doc, handleSecurityEndpointsParams (some s) (Json.obj es) = .ok doc ∧
        doc.getKey "endpointUTUsername" = some (.str s.username) ∧
        doc.getKey "endpointUTPassword" = some (.str s.password) ∧
        doc.getKey "endpointAuthDigest" = some (.bool false) ∧
        doc.getKey "endpointSecured" = some (.bool true)) ∧
    (s.username ≠ "" → s.password ≠ "" → s.type ≠ "" → s.type ≠ "digest" → s.type ≠ "basic" →
      handleSecurityEndpointsParams (some s) (Json.obj es) = .error .invalidSecurityType) := by
  have hne : s.enabled ≠ "" := by
    intro he
    rw [he] at ht
    exact absurd ht (by decide)
  refine ⟨?_, ?_, ?_, ?_⟩
  · intro hcase
    by_cases hu : s.username = ""
    · refine ⟨.securityUsernameMissing, ?_, by decide⟩
      simp [handleSecurityEndpointsParams, hne, ht, Json.setPath,
        setSecurityEndpointsParams, hu]
    · by_cases hp : s.password = ""
      · refine ⟨.securityPasswordMissing, ?_, by decide⟩
        simp [handleSecurityEndpointsParams, hne, ht, Json.setPath,
          setSecurityEndpointsParams, hu, hp]
      · have htp : s.type = "" := by
          rcases hcase with h1 | h2 | h3
          · exact absurd h1 hu
          · exact absurd h2 hp
          · exact h3
        refine ⟨.securityTypeMissing, ?_, by decide⟩
        simp [handleSecurityEndpointsParams, hne, ht, Json.setPath,
          setSecurityEndpointsParams, hu, hp, htp]
  · intro hu hp htp
    refine ⟨Json.obj (setKey (setKey (setKey (setKey es "endpointSecured" (Json.bool true))
        "endpointUTUsername" (Json.str s.username)) "endpointUTPassword"
        (Json.str s.password)) "endpointAuthDigest" (Json.bool true)), ?_, ?_, ?_, ?_, ?_⟩
    · simp +decide [handleSecurityEndpointsParams, hne, ht, Json.setPath,
        setSecurityEndpointsParams, setEndpointSecurityType, hu, hp, htp]
    · rw [Json.getKey]
      rw [jsonFind_setKey_ne _ _ (by decide), jsonFind_setKey_ne _ _ (by decide)]
      exact jsonFind_setKey_self _ _ _
    · rw [Json.getKey]
      rw [jsonFind_setKey_ne _ _ (by decide)]
      exact jsonFind_setKey_self _ _ _
    · rw [Json.getKey]
      exact jsonFind_setKey_self _ _ _
    · rw [Json.getKey]
      rw [jsonFind_setKey_ne _ _ (by decide), jsonFind_setKey_ne _ _ (by decide),
        jsonFind_setKey_ne _ _ (by decide)]
      exact jsonFind_setKey_self _ _ _
  · intro hu hp htp
    refine ⟨Json.obj (setKey (setKey (setKey (setKey es "endpointSecured" (Json.bool true))
        "endpointUTUsername" (Json.str s.username)) "endpointUTPassword"
        (Json.str s.password)) "endpointAuthDigest" (Json.bool false)), ?_, ?_, ?_, ?_, ?_⟩
    · simp +decide [handleSecurityEndpointsParams, hne, ht, Json.setPath,
        setSecurityEndpointsParams, setEndpointSecurityType, hu, hp, htp]
    · rw [Json.getKey]
      rw [jsonFind_setKey_ne _ _ (by decide), jsonFind_setKey_ne _ _ (by decide)]
      exact jsonFind_setKey_self _ _ _
    · rw [Json.getKey]
      rw [jsonFind_setKey_ne _ _ (by decide)]
      exact jsonFind_setKey_self _ _ _
    · rw [Json.getKey]
      exact jsonFind_setKey_self _ _ _
    · rw [Json.getKey]
      rw [jsonFind_setKey_ne _ _ (by decide), jsonFind_setKey_ne _ _ (by decide),
        jsonFind_setKey_ne _ _ (by decide)]
      exact jsonFind_setKey_self _ _ _
  · intro hu hp ht0 htd htb
    simp [handleSecurityEndpointsParams, hne, ht, Json.setPath,
      setSecurityEndpointsParams, setEndpointSecurityType, hu, hp, ht0, htd, htb]

/-- Claim C6 witness: a digest-typed override on an empty definition. -/
theorem c6_security_enabled_true_witness :
    handleSecurityEndpointsParams
        (some { enabled := "true", username := "u1", password := "p1", type := "digest" })
        (Json.obj []) =
      .ok (Json.obj [("endpointSecured", Json.bool true),
                     ("endpointUTUsername", Json.str "u1"),
                     ("endpointUTPassword", Json.str "p1"),
                     ("endpointAuthDigest", Json.bool true)]) ∧
    (Json.obj [("endpointSecured", Json.bool true),
               ("endpointUTUsername", Json.str "u1"),
               ("endpointUTPassword", Json.str "p1"),
               ("endpointAuthDigest", Json.bool true)]).getKey "endpointAuthDigest" =
      some (Json.bool true) := by
  obtain ⟨doc, hok, _, _, hd, _⟩ :=
    ((c6_security_enabled_true
      { enabled := "true", username := "u1", password := "p1", type := "digest" } []
      (by decide)).2.1 (by decide) (by decide) rfl)
  have hdoc : handleSecurityEndpointsParams
      (some { enabled := "true", username := "u1", password := "p1", type := "digest" })
      (Json.obj []) =
      .ok (Json.obj [("endpointSecured", Json.bool true),
                     ("endpointUTUsername", Json.str "u1"),
                     ("endpointUTPassword", Json.str "p1"),
                     ("endpointAuthDigest", Json.bool true)]) := by
    simp +decide [handleSecurityEndpointsParams, parseBool, Json.setPath,
      setSecurityEndpointsParams, setEndpointSecurityType, setKey]
  refine ⟨hdoc, ?_⟩
  have := hok.symm.trans hdoc
  simp only [Except.ok.injEq] at this
  rw [← this]
  exact hd

/-- A successful merge stores the merged endpoint configuration under
`endpointConfig` as the serialized string. -/
theorem mergeAPI_endpointConfig {api : Json} {env : Environment} {doc : Json}
    (h : mergeAPI api env = .ok doc) :
    doc.getKey "endpointConfig" =
      some (.str (serializeJson (mergeJSON (extractAPIEndpointConfig api) env.endpoints))) := by
  unfold mergeAPI at h
  cases hset1 : api.setPath ["endpointConfig"]
      (Json.str (serializeJson (mergeJSON (extractAPIEndpointConfig api) env.endpoints))) with
  | none => simp only [hset1] at h; exact absurd h (by simp)
  | some api1 =>
    simp only [hset1] at h
    have g1 := (setPath_single_spec hset1).1
    cases hgw : env.gatewayEnvironments with
    | none =>
      simp only [hgw] at h
      rw [handleSecurityEndpointsParams_frame h (by decide) (by decide) (by decide) (by decide)]
      exact g1
    | some gws =>
      simp only [hgw] at h
      cases hset2 : api1.setPath ["environments"] (Json.arr (gws.map Json.str)) with
      | none => simp only [hset2] at h; exact absurd h (by simp)
      | some api2 =>
        simp only [hset2] at h
        rw [handleSecurityEndpointsParams_frame h (by decide) (by decide) (by decide) (by decide)]
        rw [(setPath_single_spec hset2).2 _ (by decide)]
        exact g1

/-- A pre-processing run that reports the document dirty stored a
serialized string under `endpointConfig`. -/
theorem preProcessAPI_endpointConfig {api res : Json}
    (h : preProcessAPI api = .ok (res, true)) :
    ∃ s, res.getKey "endpointConfig" = some (.str s) := by
  unfold preProcessAPI at h
  by_cases hk : api.hasKey "endpointConfig"
  · rw [if_pos hk] at h
    simp only [Except.ok.injEq, Prod.mk.injEq] at h
    exact absurd h.2 (by decide)
  · rw [if_neg hk] at h
    cases hs1 : synthProductionEndpoints api (Json.obj [("endpoint_type", Json.str "http")]) with
    | error e => simp only [hs1] at h; exact absurd h (by simp)
    | ok p1 =>
      obtain ⟨conf1, api1⟩ := p1
      simp only [hs1] at h
      cases hs2 : synthSandboxEndpoints api1 conf1 with
      | error e => simp only [hs2] at h; exact absurd h (by simp)
      | ok p2 =>
        obtain ⟨conf2, api2⟩ := p2
        simp only [hs2] at h
        cases hset : api2.setPath ["endpointConfig"] (Json.str (serializeJson conf2)) with
        | none => simp only [hset] at h; exact absurd h (by simp)
        | some api3 =>
          simp only [hset, Except.ok.injEq, Prod.mk.injEq] at h
          obtain ⟨hres, -⟩ := h
          subst hres
          exact ⟨serializeJson conf2, (setPath_single_spec hset).1⟩

/-- Claim C9: after a successful parameter merge the `endpointConfig`
field of the written document holds the merged endpoint configuration as a
single serialized JSON string value, not a structured subtree; the
`endpointConfig` synthesized by pre-processing from the legacy
`productionUrl`/`sandboxUrl` fields is likewise a serialized string. -/
theorem c9_endpoint_config_serialized_string (api : Json) (env : Environment) :
    (∀ doc, mergeAPI api env = .ok doc →
      doc.getKey "endpointConfig" =
        some (.str (serializeJson (mergeJSON (extractAPIEndpointConfig api) env.endpoints)))) ∧
    (∀ res, preProcessAPI api = .ok (res, true) →
      ∃ s, res.getKey "endpointConfig" = some (.str s)) :=
  ⟨fun _ h => mergeAPI_endpointConfig h, fun _ h => preProcessAPI_endpointConfig h⟩

/-- Claim C9 witness: a merge over an empty definition, and a
pre-processing run of a definition with no endpoint configuration. -/
theorem c9_endpoint_config_serialized_string_witness :
    mergeAPI (Json.obj [])
        { endpoints := Json.obj [], gatewayEnvironments := none, security := none } =
      .ok (Json.obj [("endpointConfig", Json.str "\x7b\x7d")]) ∧
    (Json.obj [("endpointConfig", Json.str "\x7b\x7d")]).getKey "endpointConfig" =
      some (Json.str (serializeJson (mergeJSON
        (extractAPIEndpointConfig (Json.obj [])) (Json.obj [])))) ∧
    preProcessAPI (Json.obj []) =
      .ok (Json.obj [("endpointConfig",
            Json.str "\x7b\"endpoint_type\":\"http\"\x7d")], true) ∧
    (∃ s, (Json.obj [("endpointConfig",
            Json.str "\x7b\"endpoint_type\":\"http\"\x7d")]).getKey "endpointConfig" =
        some (Json.str s)) := by
  have hok : mergeAPI (Json.obj [])
      { endpoints := Json.obj [], gatewayEnvironments := none, security := none } =
      .ok (Json.obj [("endpointConfig", Json.str "\x7b\x7d")]) := by
    simp [mergeAPI, extractAPIEndpointConfig, Json.getKey, jsonFind, List.find?, mergeJSON,
      serializeJson, serializeObj, Json.setPath, setKey, handleSecurityEndpointsParams]
  have hpre : preProcessAPI (Json.obj []) =
      .ok (Json.obj [("endpointConfig",
            Json.str "\x7b\"endpoint_type\":\"http\"\x7d")], true) := by
    simp +decide [preProcessAPI, synthProductionEndpoints, synthSandboxEndpoints,
      Json.hasKey, Json.getKey, jsonFind, List.find?,
      Json.setPath, setKey, serializeJson, serializeObj, escapeString, escapeChar]
  refine ⟨hok, ?_, hpre, ?_⟩
  · exact (c9_endpoint_config_serialized_string (Json.obj [])
      { endpoints := Json.obj [], gatewayEnvironments := none, security := none }).1 _ hok
  · exact (c9_endpoint_config_serialized_string (Json.obj [])
      { endpoints := Json.obj [], gatewayEnvironments := none, security := none }).2 _ hpre

/-- The context/template computation of the API defaults stage, for an
unset template: the placeholder-bearing branch and the appending branch. -/
theorem populateApi_context_spec (d : APIDefinition) (hct : d.contextTemplate = "") :
    (goContains d.context "{version}" = true →
      (populateApiWithDefaults d).1.contextTemplate = goPathClean d.context ∧
      (populateApiWithDefaults d).1.context =
        goReplaceAll (goPathClean d.context) "{version}" d.id.version) ∧
    (goContains d.context "{version}" = false →
      (populateApiWithDefaults d).1.contextTemplate =
        goPathClean (d.context ++ "/{version}") ∧
      (populateApiWithDefaults d).1.context =
        goReplaceAll (goPathClean (d.context ++ "/{version}")) "{version}" d.id.version) := by
  constructor
  · intro hcv
    simp only [populateApiWithDefaults, hct, hcv, if_true]
    constructor <;> ((repeat' split) <;> simp_all)
  · intro hcv
    simp only [populateApiWithDefaults, hct, hcv, if_true]
    constructor <;> ((repeat' split) <;> simp_all)

/-- The context/template computation of the API Product defaults stage. -/
theorem populateApiProduct_context_spec (p : APIProductDefinition)
    (hct : p.contextTemplate = "") :
    (goContains p.context "{version}" = true →
      (populateApiProductWithDefaults p).1.contextTemplate = goPathClean p.context ∧
      (populateApiProductWithDefaults p).1.context =
        goReplaceAll (goPathClean p.context) "{version}" p.id.version) ∧
    (goContains p.context "{version}" = false →
      (populateApiProductWithDefaults p).1.contextTemplate =
        goPathClean (p.context ++ "/{version}") ∧
      (populateApiProductWithDefaults p).1.context =
        goReplaceAll (goPathClean (p.context ++ "/{version}")) "{version}" p.id.version) := by
  constructor
  · intro hcv
    simp only [populateApiProductWithDefaults, hct, hcv, if_true]
    constructor <;> ((repeat' split) <;> simp_all)
  · intro hcv
    simp only [populateApiProductWithDefaults, hct, hcv, if_true]
    constructor <;> ((repeat' split) <;> simp_all)

/-- Claim C4: for a definition with an unset context template, the defaults
stage computes the template as the path-cleaned context when the context
already carries the literal placeholder, and as the path-cleaned
`context + "/" + placeholder` otherwise; the final context is in both cases
the template with the placeholder replaced by the version. -/
theorem c4_context_template_defaults (d : APIDefinition) (p : APIProductDefinition) :
    (d.contextTemplate = "" →
      (goContains d.context "{version}" = true →
        (populateApiWithDefaults d).1.contextTemplate = goPathClean d.context ∧
        (populateApiWithDefaults d).1.context =
          goReplaceAll (goPathClean d.context) "{version}" d.id.version) ∧
      (goContains d.context "{version}" = false →
        (populateApiWithDefaults d).1.contextTemplate =
          goPathClean (d.context ++ "/{version}") ∧
        (populateApiWithDefaults d).1.context =
          goReplaceAll (goPathClean (d.context ++ "/{version}")) "{version}" d.id.version)) ∧
    (p.contextTemplate = "" →
      (goContains p.context "{version}" = true →
        (populateApiProductWithDefaults p).1.contextTemplate = goPathClean p.context ∧
        (populateApiProductWithDefaults p).1.context =
          goReplaceAll (goPathClean p.context) "{version}" p.id.version) ∧
      (goContains p.context "{version}" = false →
        (populateApiProductWithDefaults p).1.contextTemplate =
          goPathClean (p.context ++ "/{version}") ∧
        (populateApiProductWithDefaults p).1.context =
          goReplaceAll (goPathClean (p.context ++ "/{version}")) "{version}" p.id.version)) :=
  ⟨fun hct => populateApi_context_spec d hct,
   fun hct => populateApiProduct_context_spec p hct⟩

/-- Claim C4 witness: the two placeholder shapes on concrete contexts. -/
theorem c4_context_template_defaults_witness :
    (populateApiWithDefaults
        { id := { apiName := "PizzaShack", version := "1.0.0", provider := "admin" },
          context := "/pizza", contextTemplate := "", tags := none,
          uriTemplates := none, implementation := "" }).1.contextTemplate =
      "/pizza/\x7bversion\x7d" ∧
    (populateApiWithDefaults
        { id := { apiName := "PizzaShack", version := "1.0.0", provider := "admin" },
          context := "/pizza", contextTemplate := "", tags := none,
          uriTemplates := none, implementation := "" }).1.context = "/pizza/1.0.0" ∧
    (populateApiWithDefaults
        { id := { apiName := "T", version := "2.0.0", provider := "admin" },
          context := "/t/\x7bversion\x7d", contextTemplate := "", tags := none,
          uriTemplates := none, implementation := "" }).1.contextTemplate =
      "/t/\x7bversion\x7d" ∧
    (populateApiWithDefaults
        { id := { apiName := "T", version := "2.0.0", provider := "admin" },
          context := "/t/\x7bversion\x7d", contextTemplate := "", tags := none,
          uriTemplates := none, implementation := "" }).1.context = "/t/2.0.0" := by
  have h1 := ((c4_context_template_defaults
    { id := { apiName := "PizzaShack", version := "1.0.0", provider := "admin" },
      context := "/pizza", contextTemplate := "", tags := none,
      uriTemplates := none, implementation := "" }
    { id := { apiProductName := "P", version := "1", provider := "a" },
      context := "/p", contextTemplate := "", tags := none }).1 rfl).2 (by decide)
  have h2 := ((c4_context_template_defaults
    { id := { apiName := "T", version := "2.0.0", provider := "admin" },
      context := "/t/\x7bversion\x7d", contextTemplate := "", tags := none,
      uriTemplates := none, implementation := "" }
    { id := { apiProductName := "P", version := "1", provider := "a" },
      context := "/p", contextTemplate := "", tags := none }).1 rfl).1 (by decide)
  refine ⟨?_, ?_, ?_, ?_⟩
  · rw [h1.1]; decide
  · rw [h1.2]; decide
  · rw [h2.1]; decide
  · rw [h2.2]; decide

/-- Claim C5: the validator checks its seven rules in a fixed order and
returns the first failure: a definition violating both the name-characters
rule and the context-non-empty rule always reports the name-characters
failure, for APIs and for API Products. -/
theorem c5_validation_first_failure (d : APIDefinition) (p : APIProductDefinition) :
    (hasIllegalNameChar d.id.apiName = true → isEmpty d.context = true →
      validateApiDefinition d = some .nameIllegalChars) ∧
    (hasIllegalNameChar p.id.apiProductName = true → isEmpty p.context = true →
      validateApiProductDefinition p = some .nameIllegalChars) := by
  constructor
  · intro hname _
    unfold validateApiDefinition
    rw [isEmpty_eq_false_of_illegal hname]
    simp [hname]
  · intro hname _
    unfold validateApiProductDefinition
    rw [isEmpty_eq_false_of_illegal hname]
    simp [hname]

/-- Claim C5 witness: a name with a forbidden character and an all-blank
context report the name-characters failure. -/
theorem c5_validation_first_failure_witness :
    validateApiDefinition
        { id := { apiName := "Pizza~Shack", version := "1.0.0", provider := "admin" },
          context := "  ", contextTemplate := "/t", tags := some [],
          uriTemplates := some [], implementation := "ENDPOINT" } =
      some .nameIllegalChars ∧
    validateApiProductDefinition
        { id := { apiProductName := "P#rod", version := "1.0.0", provider := "admin" },
          context := "", contextTemplate := "/t", tags := some [] } =
      some .nameIllegalChars := by
  have h := c5_validation_first_failure
    { id := { apiName := "Pizza~Shack", version := "1.0.0", provider := "admin" },
      context := "  ", contextTemplate := "/t", tags := some [],
      uriTemplates := some [], implementation := "ENDPOINT" }
    { id := { apiProductName := "P#rod", version := "1.0.0", provider := "admin" },
      context := "", contextTemplate := "/t", tags := some [] }
  exact ⟨h.1 (by decide) (by decide), h.2 (by decide) (by decide)⟩

/-- After one defaults application every defaulted field is filled. -/
theorem populateApi_fields_filled (d : APIDefinition) :
    (populateApiWithDefaults d).1.contextTemplate ≠ "" ∧
    (populateApiWithDefaults d).1.tags ≠ none ∧
    (populateApiWithDefaults d).1.uriTemplates ≠ none ∧
    (populateApiWithDefaults d).1.implementation ≠ "" := by
  by_cases h1 : d.contextTemplate = "" <;>
  by_cases hc : goContains d.context "{version}" = true <;>
  by_cases h2 : d.tags = none <;>
  by_cases h3 : d.uriTemplates = none <;>
  by_cases h4 : d.implementation = "" <;>
    simp_all [populateApiWithDefaults, goPathClean_ne_empty]

/-- A document whose defaulted fields are already filled passes the
defaults stage unchanged and clean. -/
theorem populateApi_of_filled {d1 : APIDefinition} (h1 : d1.contextTemplate ≠ "")
    (h2 : d1.tags ≠ none) (h3 : d1.uriTemplates ≠ none) (h4 : d1.implementation ≠ "") :
    populateApiWithDefaults d1 = (d1, false) := by
  unfold populateApiWithDefaults
  simp [h1, h2, h3, h4]

/-- After one product defaults application the defaulted fields are filled. -/
theorem populateApiProduct_fields_filled (p : APIProductDefinition) :
    (populateApiProductWithDefaults p).1.contextTemplate ≠ "" ∧
    (populateApiProductWithDefaults p).1.tags ≠ none := by
  by_cases h1 : p.contextTemplate = "" <;>
  by_cases hc : goContains p.context "{version}" = true <;>
  by_cases h2 : p.tags = none <;>
    simp_all [populateApiProductWithDefaults, goPathClean_ne_empty]

/-- A product document with filled defaults passes unchanged and clean. -/
theorem populateApiProduct_of_filled {p1 : APIProductDefinition}
    (h1 : p1.contextTemplate ≠ "") (h2 : p1.tags ≠ none) :
    populateApiProductWithDefaults p1 = (p1, false) := by
  unfold populateApiProductWithDefaults
  simp [h1, h2]

/-- Claim C8: the defaults stage is idempotent - the second application
returns the once-populated document unchanged and reports it clean, for
APIs and for API Products. -/
theorem c8_defaults_idempotent (d : APIDefinition) (p : APIProductDefinition) :
    populateApiWithDefaults (populateApiWithDefaults d).1 =
      ((populateApiWithDefaults d).1, false) ∧
    populateApiProductWithDefaults (populateApiProductWithDefaults p).1 =
      ((populateApiProductWithDefaults p).1, false) := by
  obtain ⟨h1, h2, h3, h4⟩ := populateApi_fields_filled d
  obtain ⟨g1, g2⟩ := populateApiProduct_fields_filled p
  exact ⟨populateApi_of_filled h1 h2 h3 h4, populateApiProduct_of_filled g1 g2⟩

/-- `ReplaceAll` on the empty string is empty. -/
theorem replaceAllFuel_nil (pat rep : List Char) (f : Nat) :
    replaceAllFuel pat rep f [] = [] := by
  cases f <;> rfl

/-- Stripping a list from itself leaves nothing. -/
theorem dropExact_self (l : List Char) : dropExact l l = some [] := by
  induction l with
  | nil => rfl
  | cons c cs ih => simp [dropExact, ih]

/-- A `ReplaceAll` step over a position where the pattern does not match. -/
theorem replaceAllFuel_step_ne {pat : List Char} (rep : List Char) {c : Char}
    {rest : List Char} (f : Nat) (h : dropExact pat (c :: rest) = none) :
    replaceAllFuel pat rep (f + 1) (c :: rest) = c :: replaceAllFuel pat rep f rest := by
  cases pat with
  | nil => simp [dropExact] at h
  | cons p ps => simp [replaceAllFuel, h]

/-- `ReplaceAll` of the whole pattern is the replacement. -/
theorem replaceAllFuel_exact {pat : List Char} (rep : List Char) (f : Nat)
    (hne : pat ≠ []) : replaceAllFuel pat rep (f + 1) pat = rep := by
  cases pat with
  | nil => exact absurd rfl hne
  | cons p ps => simp [replaceAllFuel, dropExact_self, replaceAllFuel_nil]

/-- Replacing the version placeholder in the default template prepends a
slash to the version. -/
theorem goReplaceAll_slash_version (v : String) :
    goReplaceAll "/\x7bversion\x7d" "\x7bversion\x7d" v = "/" ++ v := by
  obtain ⟨lv⟩ := v
  unfold goReplaceAll
  rw [show ("/\x7bversion\x7d" : String).data =
      '/' :: ("\x7bversion\x7d" : String).data from rfl]
  rw [List.length_cons]
  rw [replaceAllFuel_step_ne _ _ (by decide)]
  rw [show ("\x7bversion\x7d" : String).data.length = 8 + 1 from rfl]
  rw [replaceAllFuel_exact _ 8 (by decide)]
  rfl

/-- The data of a string with a slash prepended. -/
theorem slash_append_data (v : String) : ("/" ++ v).data = '/' :: v.data := by
  obtain ⟨l⟩ := v
  rfl

/-- A context of the form `/version` never trims to empty. -/
theorem isEmpty_slash_append (v : String) : isEmpty ("/" ++ v) = false := by
  have hmem : '/' ∈ ("/" ++ v).data := by
    rw [slash_append_data]
    exact List.mem_cons_self _ _
  exact isEmpty_eq_false_of_mem hmem (by decide)

/-- A context of the form `/version` starts with a slash. -/
theorem startsWith_slash_append (v : String) : goStartsWith ("/" ++ v) "/" = true := by
  rw [goStartsWith, slash_append_data]
  rw [show ("/" : String).data = ['/'] from rfl]
  simp [List.isPrefixOf]

/-- Claim C10: for a definition with unset context template and empty
context, the defaults stage produces the template `/` plus the placeholder
and the context `/` plus the version, so the validator's context-required
and context-leading-slash failures are unreachable for such inputs. -/
theorem c10_empty_context_defaults (d : APIDefinition)
    (h1 : d.contextTemplate = "") (h2 : d.context = "") :
    (populateApiWithDefaults d).1.contextTemplate = "/\x7bversion\x7d" ∧
    (populateApiWithDefaults d).1.context = "/" ++ d.id.version ∧
    validateApiDefinition (populateApiWithDefaults d).1 ≠ some .contextRequired ∧
    validateApiDefinition (populateApiWithDefaults d).1 ≠ some .contextNoSlash := by
  have hcv : goContains d.context "\x7bversion\x7d" = false := by
    rw [h2]; decide
  have hc4 := (populateApi_context_spec d h1).2 hcv
  rw [h2] at hc4
  rw [show ("" ++ "/\x7bversion\x7d" : String) = "/\x7bversion\x7d" from rfl] at hc4
  rw [show goPathClean "/\x7bversion\x7d" = "/\x7bversion\x7d" from by decide] at hc4
  have ect : (populateApiWithDefaults d).1.contextTemplate = "/\x7bversion\x7d" := hc4.1
  have ectx : (populateApiWithDefaults d).1.context = "/" ++ d.id.version := by
    rw [hc4.2, goReplaceAll_slash_version]
  refine ⟨ect, ectx, ?_, ?_⟩ <;>
  · unfold validateApiDefinition
    rw [ect, ectx]
    rw [isEmpty_slash_append, startsWith_slash_append]
    rw [show isEmpty "/\x7bversion\x7d" = false from by decide]
    rw [show goStartsWith "/\x7bversion\x7d" "/" = true from by decide]
    split_ifs <;> simp_all

/-- Claim C10 witness: an empty context and template with version 3.0.0. -/
theorem c10_empty_context_defaults_witness :
    (populateApiWithDefaults
        { id := { apiName := "A", version := "3.0.0", provider := "admin" },
          context := "", contextTemplate := "", tags := none,
          uriTemplates := none, implementation := "" }).1.contextTemplate =
      "/\x7bversion\x7d" ∧
    (populateApiWithDefaults
        { id := { apiName := "A", version := "3.0.0", provider := "admin" },
          context := "", contextTemplate := "", tags := none,
          uriTemplates := none, implementation := "" }).1.context = "/" ++ "3.0.0" ∧
    validateApiDefinition (populateApiWithDefaults
        { id := { apiName := "A", version := "3.0.0", provider := "admin" },
          context := "", contextTemplate := "", tags := none,
          uriTemplates := none, implementation := "" }).1 ≠ some .contextRequired :=
  have h := c10_empty_context_defaults
    { id := { apiName := "A", version := "3.0.0", provider := "admin" },
      context := "", contextTemplate := "", tags := none,
      uriTemplates := none, implementation := "" } rfl rfl
  ⟨h.1, h.2.1, h.2.2.1⟩

/-- Claim C7 counterexample: a catalog response of count 1 whose first
summary carries an empty identifier makes the dispatcher choose the create
path, refuting "a count of one or more selects the update path" as stated. -/
theorem c7_counterexample_empty_identifier :
    ¬(decideUpdateAPI true { count := 1, list := [{ id := "" }] } = some true) := by
  decide

/-- Claim C7 (amended): with the update flag, a count of zero selects the
create path and a positive count whose first match has a non-empty
identifier selects the update path using that identifier (an empty
identifier falls back to the create path); the create query string carries
no overwrite parameter while the update query string carries
`overwrite=true`; the upload method and extra parameters are identical on
both paths; the catalog filter is the exact name-and-version match, with
the fixed type filter added for API Products. -/
theorem c7_amended_create_vs_update (resp : ApiListResponse) (base name version : String)
    (preserveProvider : Bool) :
    (resp.count = 0 → getApiID resp = some "" ∧ decideUpdateAPI true resp = some false) ∧
    (∀ a, resp.count ≠ 0 → resp.list.head? = some a → a.id ≠ "" →
      getApiID resp = some a.id ∧ decideUpdateAPI true resp = some true) ∧
    (∀ a, resp.count ≠ 0 → resp.list.head? = some a → a.id = "" →
      decideUpdateAPI true resp = some false) ∧
    goContains (importApiQuery false preserveProvider) "overwrite" = false ∧
    goContains (importApiQuery true preserveProvider) "overwrite=true" = true ∧
    (importApiRequest base true preserveProvider).httpMethod =
      (importApiRequest base false preserveProvider).httpMethod ∧
    (importApiRequest base true preserveProvider).extraParams =
      (importApiRequest base false preserveProvider).extraParams ∧
    (importApiRequest base true preserveProvider).url =
      base ++ "/import/api" ++
        ("?overwrite=true&preserveProvider=" ++ goFormatBool preserveProvider) ∧
    (importApiRequest base false preserveProvider).url =
      base ++ "/import/api" ++ ("?preserveProvider=" ++ goFormatBool preserveProvider) ∧
    apiSearchQuery name version = "name:" ++ name ++ " version:" ++ version ∧
    apiProductSearchQuery name version =
      apiSearchQuery name version ++ " type:\"" ++ defaultApiProductType ++ "\"" := by
  refine ⟨?_, ?_, ?_, ?_, ?_, rfl, rfl, ?_, ?_, rfl, rfl⟩
  · intro h0
    simp [getApiID, decideUpdateAPI, h0]
  · intro a hne hhead hid
    have hg : getApiID resp = some a.id := by simp [getApiID, hne, hhead]
    have hb : (a.id == "") = false := beq_eq_false_iff_ne.mpr hid
    refine ⟨hg, ?_⟩
    simp [decideUpdateAPI, hg, hb]
  · intro a hne hhead hid
    simp [getApiID, decideUpdateAPI, hne, hhead, hid]
  · cases preserveProvider <;> decide
  · cases preserveProvider <;> decide
  · cases preserveProvider <;> rfl
  · cases preserveProvider <;> rfl

/-- Claim C7 witness: a count-zero response creates (no overwrite), and a
count-one response with identifier `api-123` updates. -/
theorem c7_amended_create_vs_update_witness :
    decideUpdateAPI true { count := 0, list := [] } = some false ∧
    decideUpdateAPI true { count := 1, list := [{ id := "api-123" }] } = some true ∧
    goContains (importApiQuery false true) "overwrite" = false := by
  refine ⟨?_, ?_, ?_⟩
  · exact ((c7_amended_create_vs_update { count := 0, list := [] } "" "" "" true).1 rfl).2
  · exact (((c7_amended_create_vs_update
      { count := 1, list := [{ id := "api-123" }] } "" "" "" true).2.1)
      { id := "api-123" } (by decide) rfl (by decide)).2
  · exact (c7_amended_create_vs_update
      { count := 0, list := [] } "" "" "" true).2.2.2.1

end ApimCli
